import Mathlib

/-!
# Verification of the ZOTERORAGpy pipeline-execution engine

Shallow embedding of the core components of the repository:

* `app/utils/sse_helpers.py` — the structured progress-marker parser
  (`parse_multilevel_progress`).
* `app/services/process_manager.py` — the session → PID registry
  (`ProcessManager`: `register`, `unregister`, `get_pids`, `stop_session`,
  `cleanup_dead_processes`).
* `scripts/rad_dataframe.py` — the resumable, checkpointed extraction engine
  (`_process_single_zotero_item`, `load_zotero_to_dataframe_incremental`,
  `extract_text_with_ocr_retry`, `_find_pdf_fuzzy`, `levenshtein` and the
  filename-normalisation helpers).

Python built-ins used by the source (string `strip`/`split`/`lower`,
`int(...)`, `round`, dictionaries, sets) are modelled explicitly below.
OS-level effects (file existence, directory walks, process liveness,
signal delivery) are parameterised as oracle functions, and wall-clock
timestamps are elided from persisted records.
-/

namespace ZoteroRag

/-! ## Python string and number primitives -/

/-- Whitespace characters stripped by Python's `str.strip()` (ASCII subset). -/
def pyIsSpace (c : Char) : Bool :=
  c = ' ' || c = '\t' || c = '\n' || c = '\r' || c = '\u000B' || c = '\u000C'

/-- Python `str.strip()` on a character list. -/
def pyStripList (cs : List Char) : List Char :=
  ((cs.dropWhile pyIsSpace).reverse.dropWhile pyIsSpace).reverse

/-- Python `str.strip()`. -/
def pyStrip (s : String) : String :=
  String.mk (pyStripList s.toList)

/-- Python `str.startswith(pre)`, computed on character lists
(first argument is the candidate prefix). -/
def listStartsWith : List Char → List Char → Bool
  | [], _ => true
  | _ :: _, [] => false
  | p :: ps, c :: cs => p = c && listStartsWith ps cs

/-- Python `str.startswith(pre)` on strings. -/
def pyStartsWith (s pre : String) : Bool :=
  listStartsWith pre.toList s.toList

/-- Split a character list at the first occurrence of `sep`:
returns the part before and the part after, or `none` if `sep` is absent. -/
def splitAtChar (sep : Char) : List Char → Option (List Char × List Char)
  | [] => none
  | c :: cs =>
    if c = sep then some ([], cs)
    else (splitAtChar sep cs).map (fun p => (c :: p.1, p.2))

/-- Python `str.split(sep, maxsplit)` for a one-character separator:
performs at most `n` splits. -/
def pySplitMax (sep : Char) : Nat → List Char → List (List Char)
  | 0, cs => [cs]
  | n + 1, cs =>
    match splitAtChar sep cs with
    | none => [cs]
    | some (pre, post) => pre :: pySplitMax sep n post

/-- Digit-run recogniser used by `pyInt`: digits optionally separated by
single underscores (Python's integer-literal grammar for `int(...)`). -/
def pyDigitsGo (acc : Nat) : List Char → Option Nat
  | [] => some acc
  | '_' :: rest =>
    match rest with
    | c :: cs => if c.isDigit then pyDigitsGo (acc * 10 + (c.toNat - 48)) cs else none
    | [] => none
  | c :: cs => if c.isDigit then pyDigitsGo (acc * 10 + (c.toNat - 48)) cs else none

/-- Parse a non-empty digit run (underscores allowed between digits). -/
def pyDigits : List Char → Option Nat
  | [] => none
  | c :: cs => if c.isDigit then pyDigitsGo (c.toNat - 48) cs else none

/-- Python `int(str)`: surrounding whitespace stripped, optional sign,
then a digit run; any other input raises `ValueError`, modelled as `none`. -/
def pyInt (cs : List Char) : Option Int :=
  match pyStripList cs with
  | '+' :: rest => (pyDigits rest).map Int.ofNat
  | '-' :: rest => (pyDigits rest).map (fun n => -(n : Int))
  | rest => (pyDigits rest).map Int.ofNat

/-- Python `str.lower()` (ASCII case mapping). -/
def strLower (s : String) : String := String.mk (s.toList.map Char.toLower)

/-- Python `str.endswith(suffix)`. -/
def pyEndsWith (s suffix : String) : Bool :=
  listStartsWith suffix.toList.reverse s.toList.reverse

/-- Python `s[:n]` (first `n` characters). -/
def pyTake (s : String) (n : Nat) : String := String.mk (s.toList.take n)

/-- Python `str.capitalize()` (first character upper-cased, rest lower-cased). -/
def pyCapitalize (s : String) : String :=
  match s.toList with
  | [] => ""
  | c :: cs => String.mk (c.toUpper :: cs.map Char.toLower)

/-- Python `round(num/den)` for exact arguments with `den > 0`:
round half to even (banker's rounding). -/
def pyRoundDiv (num den : Int) : Int :=
  let q := Int.fdiv num den
  let r := num - q * den
  if 2 * r < den then q
  else if den < 2 * r then q + 1
  else if q % 2 = 0 then q else q + 1

/-! ## `parse_multilevel_progress` (app/utils/sse_helpers.py, lines 285-348) -/

/-- Progress event produced by `parse_multilevel_progress`
(a Python dict with a `type` tag). -/
inductive ProgressEvent where
  | init (total : Int) (message : String)
  | progress (level : String) (current total percent : Int) (message : String)
deriving DecidableEq, Repr

/-- `round((current / total) * 100) if total > 0 else 0` from the source. -/
def percentOf (current total : Int) : Int :=
  if 0 < total then pyRoundDiv (current * 100) total else 0

/-- Embedding of `parse_multilevel_progress`: lines of the form
`PROGRESS|init|<total>|<message>` or `PROGRESS|<level>|<current>/<total>|<message>`;
the `ValueError`/`IndexError` paths of the source return `none`. -/
def parse_multilevel_progress (line : String) : Option ProgressEvent :=
  if !pyStartsWith line "PROGRESS|" then none
  else
    let parts := pySplitMax '|' 3 line.toList
    if parts.length < 3 then none
    else
      let level := String.mk ((pyStripList (parts.getD 1 [])).map Char.toLower)
      if level = "init" then
        match pyInt (parts.getD 2 []) with
        | none => none
        | some total =>
          let message :=
            if 3 < parts.length then String.mk (pyStripList (parts.getD 3 []))
            else s!"Found {total} items"
          some (.init total message)
      else
        let counts := pyStripList (parts.getD 2 [])
        if !counts.contains '/' then none
        else
          match splitAtChar '/' counts with
          | none => none
          | some (currentStr, totalStr) =>
            match pyInt currentStr, pyInt totalStr with
            | some current, some total =>
              let message :=
                if 3 < parts.length then String.mk (pyStripList (parts.getD 3 []))
                else s!"{pyCapitalize level} {current}/{total}"
              some (.progress level current total (percentOf current total) message)
            | _, _ => none

/-! ## `ProcessManager` (app/services/process_manager.py)

The registry `self._processes : Dict[str, Set[int]]` is modelled as an
association list with no duplicate keys (insertion order preserved, as for a
Python dict); each PID set is a duplicate-free list (insertion order).  OS
process liveness, and the outcome of sending signals, are parameterised:
`PidFate` fixes for each PID how it reacts during one `stop_session` call. -/

/-- A session → PID-set registry (`self._processes`). -/
abbrev Registry := List (String × List Int)

/-- First value bound to key `s`, as for a Python dict lookup. -/
def regLookup : Registry → String → Option (List Int)
  | [], _ => none
  | (k, v) :: rest, s => if k = s then some v else regLookup rest s

/-- Replace the value at key `s` (first occurrence), as for `d[s] = v`
on a key already present. -/
def regSet : Registry → String → List Int → Registry
  | [], _, _ => []
  | (k, v) :: rest, s, ps => if k = s then (k, ps) :: rest else (k, v) :: regSet rest s ps

/-- Delete key `s` (first occurrence), as for `del d[s]`. -/
def regRemove : Registry → String → Registry
  | [], _ => []
  | (k, v) :: rest, s => if k = s then rest else (k, v) :: regRemove rest s

/-- Python `set.add`: append if absent. -/
def insertPid (ps : List Int) (p : Int) : List Int :=
  if ps.contains p then ps else ps ++ [p]

/-- `ProcessManager.register`: create the session entry if missing, then add
the PID to its set. -/
def register (r : Registry) (s : String) (p : Int) : Registry :=
  match regLookup r s with
  | none => r ++ [(s, [p])]
  | some ps => regSet r s (insertPid ps p)

/-- `ProcessManager.unregister`: discard the PID; drop the session entry if
its set becomes empty. -/
def unregister (r : Registry) (s : String) (p : Int) : Registry :=
  match regLookup r s with
  | none => r
  | some ps =>
    let ps' := ps.erase p
    if ps' = [] then regRemove r s else regSet r s ps'

/-- `ProcessManager.get_pids`: snapshot list of the session's PIDs
(empty when the session is absent). -/
def get_pids (r : Registry) (s : String) : List Int :=
  (regLookup r s).getD []

/-- Behaviour of one PID during a `stop_session` call:
dead before SIGTERM; SIGTERM send fails (`OSError`); dies before the
SIGKILL-phase liveness check; alive at that check and SIGKILL succeeds;
alive at that check and SIGKILL fails. -/
inductive PidFate where
  | alreadyDead
  | termFails
  | diesGracefully
  | killedOk
  | killFails
deriving DecidableEq, Repr

/-- A Python value, used to model the result dictionaries returned by
`stop_session` (so that dictionary *key names* are part of the model). -/
inductive PyVal where
  | str (s : String)
  | bool (b : Bool)
  | int (n : Int)
  | pidList (ps : List Int)
  | dict (entries : List (String × PyVal))

/-- Keys of a modelled Python dict (empty for non-dict values). -/
def pyDictKeys : PyVal → List String
  | .dict entries => entries.map Prod.fst
  | _ => []

/-- Lookup in a modelled Python dict. -/
def pyDictGet (v : PyVal) (key : String) : Option PyVal :=
  match v with
  | .dict entries => (entries.find? (fun e => e.1 = key)).map Prod.snd
  | _ => none

/-- The `stop_session` result when no PIDs are registered. -/
def noProcessesResult (s : String) : PyVal :=
  .dict [("status", .str "No running processes found"),
         ("action_taken", .bool false),
         ("session", .str s),
         ("details", .str "No matching processes were found running for this session.")]

/-- `ProcessManager.stop_session`: SIGTERM every live PID, poll, SIGKILL the
survivors; classify every PID into `terminated_gracefully`, `force_killed`,
`already_dead` or `failed`, unregistering all but the `failed` ones.
The poll-timing–dependent order inside the `terminated` list is fixed to
registration order; buckets themselves are timing-independent. -/
def stop_session (r : Registry) (s : String) (fate : Int → PidFate) :
    PyVal × Registry :=
  let pids := get_pids r s
  if pids.isEmpty then (noProcessesResult s, r)
  else
    let already_dead := pids.filter (fun p => fate p = .alreadyDead)
    let terminated := pids.filter (fun p => fate p = .diesGracefully)
    let killed := pids.filter (fun p => fate p = .killedOk)
    let failed := pids.filter (fun p => fate p = .termFails)
      ++ pids.filter (fun p => fate p = .killFails)
    let total_stopped := terminated.length + killed.length + already_dead.length
    let r' := (already_dead ++ terminated ++ killed).foldl
      (fun acc p => unregister acc s p) r
    (.dict [("status", .str (if 0 < total_stopped
              then "Stop signal sent to running scripts" else "No processes stopped")),
            ("action_taken", .bool (0 < total_stopped)),
            ("session", .str s),
            ("details", .dict [
              ("terminated_gracefully", .pidList terminated),
              ("force_killed", .pidList killed),
              ("already_dead", .pidList already_dead),
              ("failed", .pidList failed),
              ("total_stopped", .int total_stopped)])],
     r')

/-- `ProcessManager.cleanup_dead_processes`: drop dead PIDs everywhere and
delete sessions whose set becomes empty (`alive` is the `os.kill(pid, 0)`
liveness probe). -/
def cleanup_dead_processes (alive : Int → Bool) (r : Registry) : Registry :=
  r.filterMap (fun e =>
    let ps' := e.2.filter alive
    if ps' = [] then none else some (e.1, ps'))

/-- One call against the `ProcessManager` registry. -/
inductive PmOp where
  | register (s : String) (p : Int)
  | unregister (s : String) (p : Int)
  | stop (s : String) (fate : Int → PidFate)
  | cleanup (alive : Int → Bool)

/-- Apply one call to the registry. -/
def applyPmOp (r : Registry) : PmOp → Registry
  | .register s p => register r s p
  | .unregister s p => unregister r s p
  | .stop s fate => (stop_session r s fate).2
  | .cleanup alive => cleanup_dead_processes alive r

/-- Run a sequence of calls starting from the empty registry. -/
def runPmOps (ops : List PmOp) : Registry :=
  ops.foldl applyPmOp []

/-- Registry well-formedness: no duplicate session keys, every PID set
non-empty and duplicate-free. -/
def RegWF (r : Registry) : Prop :=
  (r.map Prod.fst).Nodup ∧ ∀ e ∈ r, e.2 ≠ [] ∧ e.2.Nodup

/-! ## OCR retry wrapper (scripts/rad_dataframe.py, lines 391-450)

`extract_text_with_ocr_retry` is modelled over an oracle `f` giving the
outcome of the underlying `extract_text_with_ocr` call on each attempt:
success, an `OCRExtractionError` (re-raised immediately), a network-class
exception (`requests.RequestException`/`Timeout`/`ConnectionError`), or any
other exception (both of the latter are retried with `2^attempt`-second
back-off).  The trace records the result, the sleeps performed, and how many
attempts were made. -/

/-- `MAX_RETRIES = 3` from the source. -/
def MAX_RETRIES : Nat := 3

/-- `RETRY_BACKOFF_BASE = 2` from the source. -/
def RETRY_BACKOFF_BASE : Nat := 2

/-- Outcome of one underlying `extract_text_with_ocr` call. -/
inductive AttemptOutcome (α : Type) where
  | ok (v : α)
  | ocrError (msg : String)
  | transientError (msg : String)
  | otherError (msg : String)
deriving DecidableEq, Repr

/-- Final behaviour of the retry wrapper: return a value, re-raise an
`OCRExtractionError` immediately, or raise an `OCRExtractionError` after
exhausting all attempts. -/
inductive RetryOutcome (α : Type) where
  | success (v : α)
  | raised (msg : String)
  | exhausted (lastError : Option String)
deriving DecidableEq, Repr

/-- Observable trace of one `extract_text_with_ocr_retry` call. -/
structure RetryTrace (α : Type) where
  outcome : RetryOutcome α
  sleeps : List Nat
  attemptsMade : Nat
deriving DecidableEq, Repr

/-- The `for attempt in range(max_retries)` loop;
`remaining = max_retries - attempt` is the structural fuel. -/
def retryGo {α : Type} (f : Nat → AttemptOutcome α) (max_retries : Nat) :
    Nat → Nat → Option String → RetryTrace α
  | 0, _, lastErr => ⟨.exhausted lastErr, [], 0⟩
  | remaining + 1, attempt, _ =>
    match f attempt with
    | .ok v => ⟨.success v, [], 1⟩
    | .ocrError m => ⟨.raised m, [], 1⟩
    | .transientError m =>
      let rest := retryGo f max_retries remaining (attempt + 1) (some m)
      ⟨rest.outcome,
       (if attempt < max_retries - 1 then [RETRY_BACKOFF_BASE ^ attempt] else [])
         ++ rest.sleeps,
       rest.attemptsMade + 1⟩
    | .otherError m =>
      let rest := retryGo f max_retries remaining (attempt + 1) (some m)
      ⟨rest.outcome,
       (if attempt < max_retries - 1 then [RETRY_BACKOFF_BASE ^ attempt] else [])
         ++ rest.sleeps,
       rest.attemptsMade + 1⟩

/-- `extract_text_with_ocr_retry(...)` with `max_retries` attempts. -/
def extract_text_with_ocr_retry {α : Type} (f : Nat → AttemptOutcome α)
    (max_retries : Nat) : RetryTrace α :=
  retryGo f max_retries max_retries 0 none

/-! ## Filename normalisation and fuzzy matching
(scripts/rad_dataframe.py, lines 48-143 and 1141-1189)

The Python `unicodedata` normalisation functions and the `Mn`-category test
are standard-library facilities, not repository code; they are parameterised
as a `UniModel`.  A concrete instance covering the characters exercised by
the spec's example is given further below. -/

/-- The Unicode operations used by the filename normalisers:
NFC/NFD/NFKD normalisation, the combining-mark (`Mn`) category test and
per-character `str.lower()`. -/
structure UniModel where
  nfc : String → String
  nfd : String → String
  nfkd : String → String
  isMn : Char → Bool
  pyLower : Char → Char

/-- Python `str.lower()` under a `UniModel`. -/
def pyLowerStr (m : UniModel) (s : String) : String :=
  String.mk (s.toList.map m.pyLower)

/-- `strip_accents`: NFD-decompose and drop combining marks. -/
def strip_accents (m : UniModel) (s : String) : String :=
  String.mk ((m.nfd s).toList.filter (fun c => !m.isMn c))

/-- `ascii_flat`: NFKD-decompose, drop non-ASCII, lower-case. -/
def ascii_flat (m : UniModel) (s : String) : String :=
  String.mk (((m.nfkd s).toList.filter (fun c => c.toNat < 128)).map Char.toLower)

/-- `alphanum_only`: keep only the ASCII letters and digits of `ascii_flat`. -/
def alphanum_only (m : UniModel) (s : String) : String :=
  String.mk ((ascii_flat m s).toList.filter Char.isAlphanum)

/-- Inner loop of `levenshtein`: build `current_row` for row `i`
(character `ca`) from `previous_row`. -/
def levStep (b : List Char) (prev : List Nat) (i : Nat) (ca : Char) : List Nat :=
  b.enum.foldl
    (fun cur jcb =>
      let insertions := prev.getD (jcb.1 + 1) 0 + 1
      let deletions := cur.getD jcb.1 0 + 1
      let substitutions := prev.getD jcb.1 0 + (if ca = jcb.2 then 0 else 1)
      cur ++ [min insertions (min deletions substitutions)])
    [i + 1]

/-- `levenshtein` body for `len(a) >= len(b)`. -/
def levCore (a b : List Char) : Nat :=
  if b.isEmpty then a.length
  else ((a.enum.foldl (fun prev ica => levStep b prev ica.1 ica.2)
          (List.range (b.length + 1))).getD b.length 0)

/-- `levenshtein(a, b)`: dynamic-programming edit distance; the source
swaps the arguments once when `len(a) < len(b)`. -/
def levenshtein (a b : String) : Nat :=
  if a.length < b.length then levCore b.toList a.toList
  else levCore a.toList b.toList

/-- The six normalised name forms compared by `_find_pdf_fuzzy`
(for the target these are `target_names`, for a candidate `f_forms`). -/
def nameForms (m : UniModel) (s : String) : List String :=
  [pyLowerStr m (m.nfc s),
   pyLowerStr m (m.nfd s),
   pyLowerStr m (strip_accents m (m.nfc s)),
   pyLowerStr m (strip_accents m (m.nfd s)),
   ascii_flat m s,
   alphanum_only m s]

/-- The per-candidate acceptance test of `_find_pdf_fuzzy`: some normalised
form of the candidate equals some normalised form of the target, or the
alphanumeric forms are within Levenshtein distance 2 and both non-empty. -/
def fuzzyAccepts (m : UniModel) (target f : String) : Bool :=
  let target_names := nameForms m target
  let f_forms := nameForms m f
  let t_alpha := alphanum_only m target
  let f_alpha := alphanum_only m f
  let lev := levenshtein t_alpha f_alpha
  let fuzzy_match := decide (lev ≤ 2) && decide (0 < min t_alpha.length f_alpha.length)
  (target_names.any (fun t => f_forms.any (fun ff => t = ff))) || fuzzy_match

/-- The OS-path operations used by the extraction engine
(`os.path` and `os.walk`), parameterised as oracles. -/
structure PathEnv where
  isAbs : String → Bool
  joinPath : String → String → String
  pathExists : String → Bool
  basename : String → String
  dirname : String → String
  walkFiles : String → List String

/-- `_find_pdf_fuzzy`: walk the directory of the unresolved path and return
the first candidate accepted by `fuzzyAccepts` (joined to the directory),
or `None`. -/
def find_pdf_fuzzy (m : UniModel) (env : PathEnv)
    (actual_pdf_path path_from_json : String) : Option String :=
  let base_dir := env.dirname actual_pdf_path
  let candidates := if env.pathExists base_dir then env.walkFiles base_dir else []
  if candidates.isEmpty then none
  else
    match candidates.find? (fun f => fuzzyAccepts m (env.basename path_from_json) f) with
    | some f => some (env.joinPath base_dir f)
    | none => none

/-! ## Incremental extraction engine (scripts/rad_dataframe.py, lines 823-1139)

Zotero items and their PDF attachments; the OCR call
(`extract_text_with_ocr_retry(..., return_details=True)`) is an oracle
`String → Except String OCRResult` (it either returns an `OCRResult` or
raises an `OCRExtractionError` whose message is the `String`).  Wall-clock
timestamps stored in error entries and checkpoints are elided. -/

/-- `OCRResult` named tuple. -/
structure OCRResult where
  text : String
  provider : String
deriving DecidableEq, Repr

/-- One attachment of a Zotero item (absent dict keys are `none`). -/
structure Attachment where
  path : Option String
  title : Option String
deriving DecidableEq, Repr

/-- One creator of a Zotero item. -/
structure Creator where
  lastName : Option String
  firstName : Option String
deriving DecidableEq, Repr

/-- One Zotero item (absent dict keys are `none`). -/
structure Item where
  key : Option String
  itemKey : Option String
  itemType : Option String
  title : Option String
  abstractNote : Option String
  date : Option String
  url : Option String
  doi : Option String
  creators : List Creator
  attachments : List Attachment
deriving DecidableEq, Repr

/-- `item.get("key") or item.get("itemKey", "")` — Python `or` falls through
on `None` and on the empty string. -/
def effKey (item : Item) : String :=
  match item.key with
  | some k => if k.isEmpty then item.itemKey.getD "" else k
  | none => item.itemKey.getD ""

/-- `c.get('lastName') or c.get('firstName')` — Python truthiness:
present and non-empty. -/
def creatorIncluded (c : Creator) : Bool :=
  (match c.lastName with | some s => !s.isEmpty | none => false) ||
  (match c.firstName with | some s => !s.isEmpty | none => false)

/-- The `authors` metadata field. -/
def authorsOf (cs : List Creator) : String :=
  String.intercalate ", "
    ((cs.filter creatorIncluded).map
      (fun c => pyStrip (c.lastName.getD "") ++ " " ++ pyStrip (c.firstName.getD "")))

/-- One record of the Output Journal (a CSV row). -/
structure Record where
  itemKey : String
  itemType : String
  title : String
  abstract : String
  date : String
  url : String
  doi : String
  authors : String
  filename : String
  path : String
  attachment_title : String
  texteocr : String
  texteocr_provider : String
deriving DecidableEq, Repr

/-- One entry of the Error Journal (timestamp elided; `pdf_path` is only
present for `OCR_FAILED` entries). -/
structure ErrorEntry where
  itemKey : String
  title : String
  error_type : String
  error_message : String
  pdf_path : Option String
deriving DecidableEq, Repr

/-- Resolution of one attachment path: absolute or joined to the base
directory, exact existence check, then fuzzy search. -/
def resolveAttachment (m : UniModel) (env : PathEnv)
    (pdf_base_dir path_from_json : String) : Option String :=
  let actual := if env.isAbs path_from_json then path_from_json
                else env.joinPath pdf_base_dir path_from_json
  if env.pathExists actual then some actual
  else find_pdf_fuzzy m env actual path_from_json

/-- The attachment loop body of `_process_single_zotero_item`:
skip non-PDF/empty paths, record `PDF_NOT_FOUND` when resolution fails,
otherwise OCR and either append a record or record `OCR_FAILED`. -/
def processAttachment (m : UniModel) (env : PathEnv)
    (ocr : String → Except String OCRResult) (pdf_base_dir : String) (item : Item)
    (st : List Record × List ErrorEntry) (att : Attachment) :
    List Record × List ErrorEntry :=
  let path_from_json := pyStrip (att.path.getD "")
  if path_from_json.isEmpty || !(pyEndsWith (strLower path_from_json) ".pdf") then st
  else
    match resolveAttachment m env pdf_base_dir path_from_json with
    | none =>
      (st.1, st.2 ++ [{ itemKey := effKey item,
                        title := item.title.getD "",
                        error_type := "PDF_NOT_FOUND",
                        error_message := "PDF not found: " ++ path_from_json,
                        pdf_path := none }])
    | some actual =>
      match ocr actual with
      | .ok payload =>
        (st.1 ++ [{ itemKey := effKey item,
                    itemType := item.itemType.getD "",
                    title := item.title.getD "",
                    abstract := item.abstractNote.getD "",
                    date := item.date.getD "",
                    url := item.url.getD "",
                    doi := item.doi.getD "",
                    authors := authorsOf item.creators,
                    filename := env.basename path_from_json,
                    path := actual,
                    attachment_title := att.title.getD "",
                    texteocr := payload.text,
                    texteocr_provider := payload.provider }], st.2)
      | .error msg =>
        (st.1, st.2 ++ [{ itemKey := effKey item,
                          title := item.title.getD "",
                          error_type := "OCR_FAILED",
                          error_message := msg,
                          pdf_path := some actual }])

/-- `ItemProcessingResult` named tuple. -/
structure ItemProcessingResult where
  item_key : String
  records : List Record
  errors : List ErrorEntry
  success : Bool
deriving DecidableEq, Repr

/-- `_process_single_zotero_item`: metadata extraction followed by the
attachment loop.  The pure model cannot raise, so the
`PROCESSING_ERROR` catch-all branch is unreachable and `success` is
always `true`. -/
def process_single_zotero_item (m : UniModel) (env : PathEnv)
    (ocr : String → Except String OCRResult) (item : Item)
    (pdf_base_dir : String) : ItemProcessingResult :=
  let st := item.attachments.foldl (processAttachment m env ocr pdf_base_dir item) ([], [])
  { item_key := effKey item, records := st.1, errors := st.2, success := true }

/-- Python `set.add` on the processed-keys set (insertion order preserved). -/
def insertKey (ks : List String) (k : String) : List String :=
  if ks.contains k then ks else ks ++ [k]

/-- The `PROGRESS|init|...` line printed before processing. -/
def initLine (total : Nat) : String :=
  s!"PROGRESS|init|{total}|Found {total} Zotero items to process"

/-- The `PROGRESS|row|...` line printed after each item. -/
def rowLine (current total : Nat) (title_short : String) : String :=
  s!"PROGRESS|row|{current}/{total}|{title_short}"

/-- Observable state of one `load_zotero_to_dataframe_incremental` run:
the processed-keys set, the records appended to the output CSV during the
run, the collected errors (written to the errors file at the end), the
printed `PROGRESS` lines, and every checkpoint written by `save_progress`
(in write order). -/
structure RunState where
  processed : List String
  csvAppends : List Record
  errors : List ErrorEntry
  events : List String
  checkpoints : List (List String)
deriving Repr

/-- The per-item body of the sequential loop of
`load_zotero_to_dataframe_incremental`: process the item, append its
records, extend the errors, mark the item processed and persist the
checkpoint when its key is non-empty, then print the row progress line. -/
def stepItem (m : UniModel) (env : PathEnv)
    (ocr : String → Except String OCRResult) (pdf_base_dir : String)
    (total : Nat) (st : RunState × Nat) (item : Item) : RunState × Nat :=
  let s := st.1
  let item_count := st.2 + 1
  let result := process_single_zotero_item m env ocr item pdf_base_dir
  let s := { s with csvAppends := s.csvAppends ++ result.records,
                    errors := s.errors ++ result.errors }
  let s :=
    if result.item_key.isEmpty then s
    else
      let p := insertKey s.processed result.item_key
      { s with processed := p, checkpoints := s.checkpoints ++ [p] }
  let title_short := pyTake (item.title.getD ("Item " ++ effKey item)) 50
  ({ s with events := s.events ++ [rowLine item_count total title_short] }, item_count)

/-- Sequential mode of `load_zotero_to_dataframe_incremental`
(`PDF_EXTRACTION_WORKERS = 1`; with all items checkpointed the parallel
branch is not taken either, since `items_remaining > 1` fails).  `items` is
the already-parsed Zotero JSON and `processed0` the loaded checkpoint.
In parallel mode the checkpoint mutations are serialised under
`processed_keys_lock`, so the same fold over the completion order applies. -/
def load_zotero_incremental_seq (m : UniModel) (env : PathEnv)
    (ocr : String → Except String OCRResult) (items : List Item)
    (processed0 : List String) (pdf_base_dir : String) : RunState :=
  let total_items := items.length
  let already_done := processed0.length
  let items_to_process :=
    items.filter (fun it => (effKey it).isEmpty || !(processed0.contains (effKey it)))
  let s0 : RunState :=
    { processed := processed0, csvAppends := [], errors := [],
      events := [initLine total_items], checkpoints := [] }
  (items_to_process.foldl (stepItem m env ocr pdf_base_dir total_items)
    (s0, already_done)).1

/-! ## Concrete fixtures used by witnesses and counterexamples -/

/-- Modelled from the Unicode character database: NFD/NFKD decomposition
restricted to the characters exercised by the concrete examples below —
`é` (U+00E9) decomposes to `e` followed by the combining acute accent
U+0301; ASCII characters are their own decomposition. -/
def demoNFD (s : String) : String :=
  String.mk (s.toList.flatMap (fun c => if c = 'é' then ['e', '́'] else [c]))

/-- Modelled from the Unicode character database: a `UniModel` faithful to
Python's `unicodedata`/`str.lower` on the ASCII-plus-`é` strings used in
the concrete examples (the inputs are NFC-normalised already, U+0301 is the
only combining mark that occurs, and `str.lower` is the ASCII mapping on
these characters). -/
def demoUni : UniModel where
  nfc := id
  nfd := demoNFD
  nfkd := demoNFD
  isMn := fun c => c = '́'
  pyLower := Char.toLower

/-- A registry with one session owning PID 42. -/
def c6Reg : Registry := [("sess", [42])]

/-- Every PID found already dead at stop time. -/
def c6Fate : Int → PidFate := fun _ => PidFate.alreadyDead

/-- Path oracle for the end-to-end fixtures: nothing is absolute, joining
is `/`-concatenation, only `base/a.pdf` exists, directory walks are empty. -/
def demoEnv : PathEnv where
  isAbs := fun _ => false
  joinPath := fun d f => d ++ "/" ++ f
  pathExists := fun p => p = "base/a.pdf"
  basename := fun p => p
  dirname := fun _ => "base"
  walkFiles := fun _ => []

/-- OCR oracle that always succeeds. -/
def demoOcr : String → Except String OCRResult :=
  fun _ => .ok { text := "extracted text", provider := "mistral" }

/-- Item A: one attachment whose file resolves and whose OCR succeeds. -/
def wItemA : Item :=
  { key := some "KEYA", itemKey := none, itemType := some "article",
    title := some "Title A", abstractNote := none, date := none, url := none,
    doi := none, creators := [], attachments := [{ path := some "a.pdf", title := some "Att A" }] }

/-- Item B: one attachment whose path resolves to no file even after the
fuzzy search. -/
def wItemB : Item :=
  { key := some "KEYB", itemKey := none, itemType := some "article",
    title := some "Title B", abstractNote := none, date := none, url := none,
    doi := none, creators := [], attachments := [{ path := some "b.pdf", title := some "Att B" }] }

/-- Item C: no attachments. -/
def wItemC : Item :=
  { key := some "KEYC", itemKey := none, itemType := some "book",
    title := some "Title C", abstractNote := none, date := none, url := none,
    doi := none, creators := [], attachments := [] }

/-- An item with no key at all (`effKey` is the empty string). -/
def c2Item : Item :=
  { key := some "", itemKey := none, itemType := none, title := none,
    abstractNote := none, date := none, url := none, doi := none,
    creators := [], attachments := [] }

/-- Invariant relating a run's already-written checkpoints to its current
processed-keys set: the checkpoints (with the loaded checkpoint `p0` in
front) form a ⊆-chain, and every one is contained in the current set. -/
def checkpointInv (p0 : List String) (s : RunState) : Prop :=
  List.Pairwise (fun a b => a ⊆ b) (p0 :: s.checkpoints) ∧
  ∀ c ∈ p0 :: s.checkpoints, c ⊆ s.processed

/-- Attempt oracle: transient failures on attempts 1 and 2, success on 3. -/
def c4fSuccess : Nat → AttemptOutcome Nat :=
  fun a => if a = 0 then .transientError "timeout0"
           else if a = 1 then .transientError "timeout1" else .ok 7

/-- Attempt oracle: a non-retryable `OCRExtractionError` (missing API key). -/
def c4fOcr : Nat → AttemptOutcome Nat :=
  fun _ => .ocrError "MISTRAL_API_KEY manquante."

/-- Attempt oracle: every attempt fails with a transient error. -/
def c4fTransient : Nat → AttemptOutcome Nat :=
  fun a => .transientError (toString a)

/-! ## Theorems for the progress-marker parser (C3, C10) -/

/-- C3: the structured marker parser maps `PROGRESS|row|5/20|doc.pdf` to a
progress event with level `row`, current 5, total 20, percent 25 and message
`doc.pdf`; maps `PROGRESS|init|20|Found 20 items` to an init event with total
20 and message `Found 20 items`; and for every well-formed progress line the
percent field equals `round(current/total*100)` when `total > 0` and `0`
otherwise. -/
theorem C3_parse_multilevel_progress :
    parse_multilevel_progress "PROGRESS|row|5/20|doc.pdf"
      = some (.progress "row" 5 20 25 "doc.pdf") ∧
    parse_multilevel_progress "PROGRESS|init|20|Found 20 items"
      = some (.init 20 "Found 20 items") ∧
    ∀ (s lvl : String) (c t p : Int) (m : String),
      parse_multilevel_progress s = some (.progress lvl c t p m) →
      p = (if 0 < t then pyRoundDiv (c * 100) t else 0) := by
  refine ⟨by rfl, by rfl, ?_⟩
  intro s lvl c t p m h
  unfold parse_multilevel_progress at h
  dsimp only at h
  repeat' split at h
  all_goals try cases h
  all_goals rfl

/-- Witness for C3: the universal percent equation applied to the concrete
line `PROGRESS|row|5/20|doc.pdf`. -/
theorem C3_parse_multilevel_progress_witness :
    (25 : Int) = (if (0 : Int) < 20 then pyRoundDiv (5 * 100) 20 else 0) :=
  C3_parse_multilevel_progress.2.2 "PROGRESS|row|5/20|doc.pdf" "row" 5 20 25
    "doc.pdf" (by rfl)

/-- C10: `parse_multilevel_progress` is total — every input yields a
well-formed event or `none`, and each malformed shape (line not starting with
`PROGRESS|`, fewer than 3 `|`-separated fields, a count field lacking `/`,
non-integer total or count fields) yields `none` rather than an error. -/
theorem C10_parser_totality (s : String) :
    (parse_multilevel_progress s = none ∨ ∃ e, parse_multilevel_progress s = some e) ∧
    (pyStartsWith s "PROGRESS|" = false → parse_multilevel_progress s = none) ∧
    ((pySplitMax '|' 3 s.toList).length < 3 → parse_multilevel_progress s = none) ∧
    (String.mk ((pyStripList ((pySplitMax '|' 3 s.toList).getD 1 [])).map Char.toLower) ≠ "init" →
      (pyStripList ((pySplitMax '|' 3 s.toList).getD 2 [])).contains '/' = false →
      parse_multilevel_progress s = none) ∧
    (String.mk ((pyStripList ((pySplitMax '|' 3 s.toList).getD 1 [])).map Char.toLower) = "init" →
      pyInt ((pySplitMax '|' 3 s.toList).getD 2 []) = none →
      parse_multilevel_progress s = none) ∧
    (∀ cstr tstr,
      String.mk ((pyStripList ((pySplitMax '|' 3 s.toList).getD 1 [])).map Char.toLower) ≠ "init" →
      splitAtChar '/' (pyStripList ((pySplitMax '|' 3 s.toList).getD 2 [])) = some (cstr, tstr) →
      pyInt cstr = none ∨ pyInt tstr = none →
      parse_multilevel_progress s = none) := by
  refine ⟨?_, ?_, ?_, ?_, ?_, ?_⟩
  · cases hp : parse_multilevel_progress s
    · exact Or.inl rfl
    · exact Or.inr ⟨_, rfl⟩
  · intro h
    unfold parse_multilevel_progress
    simp [h]
  · intro h
    unfold parse_multilevel_progress
    dsimp only
    repeat' split
    all_goals simp_all
  · intro h1 h2
    unfold parse_multilevel_progress
    dsimp only
    repeat' split
    all_goals simp_all
  · intro h1 h2
    unfold parse_multilevel_progress
    dsimp only
    repeat' split
    all_goals simp_all
  · intro cstr tstr h1 h2 h3
    rcases h3 with h3 | h3
    all_goals
      unfold parse_multilevel_progress
      dsimp only
      repeat' split
      all_goals simp_all

/-- Witness for C10: each malformed-input case of the totality theorem
applied to a concrete line. -/
theorem C10_parser_totality_witness :
    parse_multilevel_progress "hello" = none ∧
    parse_multilevel_progress "PROGRESS|x" = none ∧
    parse_multilevel_progress "PROGRESS|row|nofraction" = none ∧
    parse_multilevel_progress "PROGRESS|init|abc|m" = none ∧
    parse_multilevel_progress "PROGRESS|row|a/b|m" = none :=
  ⟨(C10_parser_totality "hello").2.1 (by rfl),
   (C10_parser_totality "PROGRESS|x").2.2.1 (by decide),
   (C10_parser_totality "PROGRESS|row|nofraction").2.2.2.1 (by decide) (by rfl),
   (C10_parser_totality "PROGRESS|init|abc|m").2.2.2.2.1 (by rfl) (by rfl),
   (C10_parser_totality "PROGRESS|row|a/b|m").2.2.2.2.2 "a".toList "b".toList
     (by decide) (by rfl) (Or.inl (by rfl))⟩

/-! ## Registry helper lemmas -/

theorem regLookup_eq_none {r : Registry} {s : String} :
    regLookup r s = none ↔ ∀ e ∈ r, e.1 ≠ s := by
  induction r with
  | nil => simp [regLookup]
  | cons e rest ih =>
    obtain ⟨k, v⟩ := e
    by_cases hk : k = s <;> simp [regLookup, hk, ih]

theorem regLookup_mem {r : Registry} {s : String} {v : List Int}
    (h : regLookup r s = some v) : (s, v) ∈ r := by
  induction r with
  | nil => simp [regLookup] at h
  | cons e rest ih =>
    obtain ⟨k, w⟩ := e
    by_cases hk : k = s
    · subst hk
      simp [regLookup] at h
      simp [h]
    · simp [regLookup, hk] at h
      exact List.mem_cons_of_mem _ (ih h)

theorem regSet_keys (r : Registry) (s : String) (v : List Int) :
    (regSet r s v).map Prod.fst = r.map Prod.fst := by
  induction r with
  | nil => rfl
  | cons e rest ih =>
    obtain ⟨k, w⟩ := e
    by_cases hk : k = s <;> simp [regSet, hk, ih]

theorem mem_regSet {r : Registry} {s : String} {v : List Int} {e : String × List Int}
    (h : e ∈ regSet r s v) : e ∈ r ∨ e.2 = v := by
  induction r with
  | nil => simp [regSet] at h
  | cons hd rest ih =>
    obtain ⟨k, w⟩ := hd
    by_cases hk : k = s
    · simp [regSet, hk] at h
      rcases h with h | h
      · exact Or.inr (by simp [h])
      · exact Or.inl (List.mem_cons_of_mem _ h)
    · simp [regSet, hk] at h
      rcases h with h | h
      · exact Or.inl (by simp [h])
      · rcases ih h with h1 | h1
        · exact Or.inl (List.mem_cons_of_mem _ h1)
        · exact Or.inr h1

theorem regRemove_sublist (r : Registry) (s : String) :
    (regRemove r s).Sublist r := by
  induction r with
  | nil => simp [regRemove]
  | cons e rest ih =>
    obtain ⟨k, w⟩ := e
    by_cases hk : k = s
    · simp [regRemove, hk]
    · simp [regRemove, hk]
      exact ih

theorem insertPid_ne_nil (ps : List Int) (p : Int) : insertPid ps p ≠ [] := by
  unfold insertPid
  split
  · intro h
    subst h
    simp_all
  · simp

theorem insertPid_nodup {ps : List Int} (h : ps.Nodup) (p : Int) :
    (insertPid ps p).Nodup := by
  unfold insertPid
  split
  · exact h
  · simp_all [List.nodup_append]

theorem RegWF_register {r : Registry} (h : RegWF r) (s : String) (p : Int) :
    RegWF (register r s p) := by
  obtain ⟨hkeys, hvals⟩ := h
  unfold register
  cases hl : regLookup r s with
  | none =>
    refine ⟨?_, ?_⟩
    · have hs : ∀ e ∈ r, e.1 ≠ s := regLookup_eq_none.mp hl
      simp only [List.map_append, List.map_cons, List.map_nil]
      rw [List.nodup_append]
      refine ⟨hkeys, List.nodup_singleton _, ?_⟩
      intro a ha hb
      simp at hb
      obtain ⟨e, he, rfl⟩ := List.mem_map.mp ha
      exact hs e he hb
    · intro e he
      rcases List.mem_append.mp he with he | he
      · exact hvals e he
      · simp at he
        subst he
        exact ⟨by simp, by simp⟩
  | some ps =>
    refine ⟨?_, ?_⟩
    · rw [regSet_keys]
      exact hkeys
    · intro e he
      rcases mem_regSet he with he | he
      · exact hvals e he
      · have hps := hvals _ (regLookup_mem hl)
        rw [he]
        exact ⟨insertPid_ne_nil _ _, insertPid_nodup hps.2 _⟩

theorem RegWF_unregister {r : Registry} (h : RegWF r) (s : String) (p : Int) :
    RegWF (unregister r s p) := by
  obtain ⟨hkeys, hvals⟩ := h
  unfold unregister
  cases hl : regLookup r s with
  | none => exact ⟨hkeys, hvals⟩
  | some ps =>
    dsimp only
    split
    · refine ⟨?_, ?_⟩
      · exact hkeys.sublist ((regRemove_sublist r s).map _)
      · intro e he
        exact hvals e ((regRemove_sublist r s).mem he)
    · refine ⟨?_, ?_⟩
      · rw [regSet_keys]
        exact hkeys
      · intro e he
        rcases mem_regSet he with he | he
        · exact hvals e he
        · have hps := hvals _ (regLookup_mem hl)
          rw [he]
          refine ⟨by assumption, hps.2.erase p⟩

theorem cleanup_keys_sublist (alive : Int → Bool) (r : Registry) :
    ((cleanup_dead_processes alive r).map Prod.fst).Sublist (r.map Prod.fst) := by
  induction r with
  | nil => simp [cleanup_dead_processes]
  | cons e rest ih =>
    obtain ⟨k, v⟩ := e
    unfold cleanup_dead_processes at ih ⊢
    by_cases hv : v.filter alive = []
    · simp only [List.filterMap_cons]
      rw [if_pos hv]
      simpa using ih.cons k
    · simp only [List.filterMap_cons]
      rw [if_neg hv]
      simpa using ih.cons₂ k

theorem mem_cleanup {alive : Int → Bool} {r : Registry} {e : String × List Int}
    (h : e ∈ cleanup_dead_processes alive r) :
    ∃ e₀ ∈ r, e.1 = e₀.1 ∧ e.2 = e₀.2.filter alive ∧ e.2 ≠ [] := by
  unfold cleanup_dead_processes at h
  rcases List.mem_filterMap.mp h with ⟨e₀, he₀, hf⟩
  dsimp only at hf
  split at hf
  · cases hf
  · rename_i hne
    cases hf
    exact ⟨e₀, he₀, rfl, rfl, hne⟩

theorem RegWF_cleanup {r : Registry} (h : RegWF r) (alive : Int → Bool) :
    RegWF (cleanup_dead_processes alive r) := by
  obtain ⟨hkeys, hvals⟩ := h
  refine ⟨hkeys.sublist (cleanup_keys_sublist alive r), ?_⟩
  intro e he
  obtain ⟨e₀, he₀, _, hfil, hne⟩ := mem_cleanup he
  exact ⟨hne, by rw [hfil]; exact (hvals e₀ he₀).2.filter _⟩

theorem RegWF_foldl_unregister {r : Registry} (h : RegWF r) (s : String) (ps : List Int) :
    RegWF (ps.foldl (fun acc p => unregister acc s p) r) := by
  induction ps generalizing r with
  | nil => exact h
  | cons p rest ih => exact ih (RegWF_unregister h s p)

theorem RegWF_stop {r : Registry} (h : RegWF r) (s : String) (fate : Int → PidFate) :
    RegWF (stop_session r s fate).2 := by
  unfold stop_session
  dsimp only
  split
  · exact h
  · exact RegWF_foldl_unregister h s _

theorem RegWF_applyPmOp {r : Registry} (h : RegWF r) (op : PmOp) :
    RegWF (applyPmOp r op) := by
  cases op with
  | register s p => exact RegWF_register h s p
  | unregister s p => exact RegWF_unregister h s p
  | stop s fate => exact RegWF_stop h s fate
  | cleanup alive => exact RegWF_cleanup h alive

theorem RegWF_runPmOps (ops : List PmOp) : RegWF (runPmOps ops) := by
  unfold runPmOps
  have hgen : ∀ r, RegWF r → RegWF (ops.foldl applyPmOp r) := by
    induction ops with
    | nil => exact fun r h => h
    | cons op rest ih => exact fun r h => ih _ (RegWF_applyPmOp h op)
  exact hgen [] ⟨by simp, by simp⟩

/-! ## Theorems for the `ProcessManager` (C5, C6, C9) -/

/-- C5: for every session with zero registered PIDs, `stop_session` returns
the normal "nothing to stop" result with `action_taken = false`, leaves the
registry unchanged, and raises no error (not-found is a normal result, not
an error state). -/
theorem C5_stop_session_no_pids (r : Registry) (s : String) (fate : Int → PidFate)
    (h : get_pids r s = []) :
    stop_session r s fate = (noProcessesResult s, r) ∧
    pyDictGet (stop_session r s fate).1 "action_taken" = some (.bool false) := by
  have he : (get_pids r s).isEmpty = true := by rw [h]; rfl
  have h1 : stop_session r s fate = (noProcessesResult s, r) := by
    unfold stop_session
    dsimp only
    rw [he]
    rfl
  exact ⟨h1, by rw [h1]; rfl⟩

/-- Witness for C5: stopping a session in the empty registry. -/
theorem C5_stop_session_no_pids_witness :
    get_pids [] "sess" = [] ∧
    pyDictGet (stop_session [] "sess" (fun _ => PidFate.alreadyDead)).1 "action_taken"
      = some (.bool false) :=
  ⟨rfl, (C5_stop_session_no_pids [] "sess" (fun _ => PidFate.alreadyDead) rfl).2⟩

/-- Counterexample for C6: on a session with one (already dead) PID, the
details object's field names are `terminated_gracefully`/`force_killed`/...,
not `terminated`/`killed`/... as claimed. -/
theorem C6_stop_report_counterexample :
    (pyDictGet (stop_session c6Reg "sess" c6Fate).1 "details").map pyDictKeys =
      some ["terminated_gracefully", "force_killed", "already_dead", "failed", "total_stopped"] ∧
    (pyDictGet (stop_session c6Reg "sess" c6Fate).1 "details").map pyDictKeys ≠
      some ["terminated", "killed", "already_dead", "failed", "total_stopped"] := by
  refine ⟨by rfl, ?_⟩
  intro h
  rw [show (pyDictGet (stop_session c6Reg "sess" c6Fate).1 "details").map pyDictKeys =
      some ["terminated_gracefully", "force_killed", "already_dead", "failed", "total_stopped"]
    from rfl] at h
  simp at h

/-- C6 (amended): for every `stop_session` call on a session with at least
one registered PID, the report's details object has exactly the fields
`terminated_gracefully`, `force_killed`, `already_dead`, `failed` and
`total_stopped`, with `total_stopped` the number of processes stopped
(graceful + forced + already dead). -/
theorem C6_stop_report_shape (r : Registry) (s : String) (fate : Int → PidFate)
    (h : get_pids r s ≠ []) :
    (pyDictGet (stop_session r s fate).1 "details").map pyDictKeys =
      some ["terminated_gracefully", "force_killed", "already_dead", "failed", "total_stopped"] ∧
    ∃ tg fk ad fl,
      pyDictGet (stop_session r s fate).1 "details" =
        some (.dict [("terminated_gracefully", .pidList tg),
                     ("force_killed", .pidList fk),
                     ("already_dead", .pidList ad),
                     ("failed", .pidList fl),
                     ("total_stopped", .int (tg.length + fk.length + ad.length))]) := by
  obtain ⟨p, ps, hl⟩ : ∃ p ps, get_pids r s = p :: ps := by
    cases hl : get_pids r s with
    | nil => exact absurd hl h
    | cons p ps => exact ⟨p, ps, rfl⟩
  unfold stop_session
  dsimp only
  rw [hl]
  exact ⟨rfl, _, _, _, _, rfl⟩

/-- Witness for C6 (amended): the report shape on a session with one PID. -/
theorem C6_stop_report_shape_witness :
    get_pids c6Reg "sess" ≠ [] ∧
    (pyDictGet (stop_session c6Reg "sess" c6Fate).1 "details").map pyDictKeys =
      some ["terminated_gracefully", "force_killed", "already_dead", "failed", "total_stopped"] :=
  ⟨by decide, (C6_stop_report_shape c6Reg "sess" c6Fate (by decide)).1⟩

/-- C4: with the default maximum of 3 attempts, the retry wrapper returns
the success value after transient failures on attempts 1 and 2 (sleeping
`2^0` then `2^1` seconds between attempts), re-raises a non-retryable
`OCRExtractionError` immediately with no retry, and raises an
`OCRExtractionError` after exactly 3 attempts when every attempt fails
transiently. -/
theorem C4_ocr_retry {α : Type} (f : Nat → AttemptOutcome α) :
    (∀ (v : α) (m1 m2 : String),
      f 0 = .transientError m1 → f 1 = .transientError m2 → f 2 = .ok v →
      extract_text_with_ocr_retry f MAX_RETRIES =
        ⟨.success v, [RETRY_BACKOFF_BASE ^ 0, RETRY_BACKOFF_BASE ^ 1], 3⟩) ∧
    (∀ m : String, f 0 = .ocrError m →
      extract_text_with_ocr_retry f MAX_RETRIES = ⟨.raised m, [], 1⟩) ∧
    (∀ m0 m1 m2 : String,
      f 0 = .transientError m0 → f 1 = .transientError m1 → f 2 = .transientError m2 →
      extract_text_with_ocr_retry f MAX_RETRIES =
        ⟨.exhausted (some m2), [RETRY_BACKOFF_BASE ^ 0, RETRY_BACKOFF_BASE ^ 1], 3⟩) := by
  refine ⟨?_, ?_, ?_⟩
  · intro v m1 m2 h0 h1 h2
    simp [extract_text_with_ocr_retry, MAX_RETRIES, retryGo, h0, h1, h2]
  · intro m h0
    simp [extract_text_with_ocr_retry, MAX_RETRIES, retryGo, h0]
  · intro m0 m1 m2 h0 h1 h2
    simp [extract_text_with_ocr_retry, MAX_RETRIES, retryGo, h0, h1, h2]

/-- Witness for C4: the three retry behaviours on concrete attempt oracles. -/
theorem C4_ocr_retry_witness :
    extract_text_with_ocr_retry c4fSuccess MAX_RETRIES =
      ⟨.success 7, [RETRY_BACKOFF_BASE ^ 0, RETRY_BACKOFF_BASE ^ 1], 3⟩ ∧
    extract_text_with_ocr_retry c4fOcr MAX_RETRIES =
      ⟨.raised "MISTRAL_API_KEY manquante.", [], 1⟩ ∧
    extract_text_with_ocr_retry c4fTransient MAX_RETRIES =
      ⟨.exhausted (some "2"), [RETRY_BACKOFF_BASE ^ 0, RETRY_BACKOFF_BASE ^ 1], 3⟩ :=
  ⟨(C4_ocr_retry c4fSuccess).1 7 "timeout0" "timeout1" rfl rfl rfl,
   (C4_ocr_retry c4fOcr).2.1 "MISTRAL_API_KEY manquante." rfl,
   (C4_ocr_retry c4fTransient).2.2 "0" "1" "2" rfl rfl rfl⟩

/-- C9: starting from the empty registry, after any finite sequence of
`register`, `unregister`, `stop_session` and `cleanup_dead_processes`
calls, every session present in the registry maps to a non-empty PID set,
and `get_pids` returns the empty list exactly for the absent sessions. -/
theorem C9_registry_invariant (ops : List PmOp) :
    (∀ e ∈ runPmOps ops, e.2 ≠ []) ∧
    (∀ s, get_pids (runPmOps ops) s = [] ↔ ∀ e ∈ runPmOps ops, e.1 ≠ s) := by
  have hwf := RegWF_runPmOps ops
  refine ⟨fun e he => (hwf.2 e he).1, fun s => ?_⟩
  constructor
  · intro h0
    rw [← regLookup_eq_none]
    cases hl : regLookup (runPmOps ops) s with
    | none => rfl
    | some ps =>
      have hne := (hwf.2 _ (regLookup_mem hl)).1
      unfold get_pids at h0
      rw [hl] at h0
      exact absurd h0 hne
  · intro h
    unfold get_pids
    rw [regLookup_eq_none.mpr h]
    rfl

/-! ## Theorem for the fuzzy filename matcher (C7) -/

theorem string_pos_len {s : String} : 0 < s.length ↔ s ≠ "" := by
  constructor
  · intro h he
    subst he
    simp at h
  · intro h
    cases s with
    | mk data =>
      rcases data with _ | ⟨c, cs⟩
      · exact absurd rfl h
      · simp [String.length]

/-- C7: the fuzzy resolver accepts a candidate filename for a target iff
some normalised form of the candidate (NFC/NFD lower-cased, accent-stripped,
ASCII-flattened or alphanumeric-only) equals a normalised form of the
target, or the Levenshtein distance between the alphanumeric-only forms is
≤ 2 with both forms non-empty; in particular `Café (2).pdf` matches
`cafe_2.pdf` and does not match `unrelated.pdf`. -/
theorem C7_fuzzy_match :
    (∀ (m : UniModel) (target f : String),
      fuzzyAccepts m target f = true ↔
        ((∃ t ∈ nameForms m target, ∃ ff ∈ nameForms m f, t = ff) ∨
         (levenshtein (alphanum_only m target) (alphanum_only m f) ≤ 2 ∧
          alphanum_only m target ≠ "" ∧ alphanum_only m f ≠ ""))) ∧
    fuzzyAccepts demoUni "Café (2).pdf" "cafe_2.pdf" = true ∧
    fuzzyAccepts demoUni "Café (2).pdf" "unrelated.pdf" = false := by
  refine ⟨?_, by rfl, by rfl⟩
  intro m target f
  unfold fuzzyAccepts
  simp only [Bool.or_eq_true, List.any_eq_true, Bool.and_eq_true, decide_eq_true_eq,
    lt_min_iff, string_pos_len]

/-! ## Per-item processing lemmas -/

theorem process_item_no_attachments (m : UniModel) (env : PathEnv)
    (ocr : String → Except String OCRResult) (item : Item) (dir : String)
    (h : item.attachments = []) :
    process_single_zotero_item m env ocr item dir = ⟨effKey item, [], [], true⟩ := by
  unfold process_single_zotero_item
  rw [h]
  rfl

theorem process_item_single_ok (m : UniModel) (env : PathEnv)
    (ocr : String → Except String OCRResult) (item : Item) (dir : String)
    (att : Attachment) (q : String) (payload : OCRResult)
    (hatt : item.attachments = [att])
    (hne : (pyStrip (att.path.getD "")).isEmpty = false)
    (hpdf : pyEndsWith (strLower (pyStrip (att.path.getD ""))) ".pdf" = true)
    (hres : resolveAttachment m env dir (pyStrip (att.path.getD "")) = some q)
    (hocr : ocr q = .ok payload) :
    ∃ rec : Record, process_single_zotero_item m env ocr item dir =
      ⟨effKey item, [rec], [], true⟩ ∧ rec.itemKey = effKey item := by
  unfold process_single_zotero_item
  rw [hatt]
  simp [processAttachment, hne, hpdf, hres, hocr]

theorem process_item_single_notfound (m : UniModel) (env : PathEnv)
    (ocr : String → Except String OCRResult) (item : Item) (dir : String)
    (att : Attachment)
    (hatt : item.attachments = [att])
    (hne : (pyStrip (att.path.getD "")).isEmpty = false)
    (hpdf : pyEndsWith (strLower (pyStrip (att.path.getD ""))) ".pdf" = true)
    (hres : resolveAttachment m env dir (pyStrip (att.path.getD "")) = none) :
    process_single_zotero_item m env ocr item dir =
      ⟨effKey item, [],
       [{ itemKey := effKey item, title := item.title.getD "",
          error_type := "PDF_NOT_FOUND",
          error_message := "PDF not found: " ++ pyStrip (att.path.getD ""),
          pdf_path := none }], true⟩ := by
  unfold process_single_zotero_item
  rw [hatt]
  simp [processAttachment, hne, hpdf, hres]

/-! ## Theorems for the incremental extraction run (C1, C2, C8) -/

/-- C1: one incremental run over three fresh items — A with one resolvable
`.pdf` attachment whose OCR succeeds, B with one `.pdf` attachment that
resolves to nothing even after the fuzzy search, C with no attachments —
appends exactly one CSV record (item A's), collects exactly one error entry
with `error_type = "PDF_NOT_FOUND"` (item B's), and ends with a checkpoint
holding exactly the three item keys. -/
theorem C1_end_to_end (m : UniModel) (env : PathEnv)
    (ocr : String → Except String OCRResult)
    (A B C : Item) (dir : String) (aA aB : Attachment) (qA : String) (payload : OCRResult)
    (hA : A.attachments = [aA])
    (hAne : (pyStrip (aA.path.getD "")).isEmpty = false)
    (hApdf : pyEndsWith (strLower (pyStrip (aA.path.getD ""))) ".pdf" = true)
    (hAres : resolveAttachment m env dir (pyStrip (aA.path.getD "")) = some qA)
    (hAocr : ocr qA = .ok payload)
    (hB : B.attachments = [aB])
    (hBne : (pyStrip (aB.path.getD "")).isEmpty = false)
    (hBpdf : pyEndsWith (strLower (pyStrip (aB.path.getD ""))) ".pdf" = true)
    (hBres : resolveAttachment m env dir (pyStrip (aB.path.getD "")) = none)
    (hC : C.attachments = [])
    (hkA : (effKey A).isEmpty = false)
    (hkB : (effKey B).isEmpty = false)
    (hkC : (effKey C).isEmpty = false)
    (hAB : effKey A ≠ effKey B) (hAC : effKey A ≠ effKey C) (hBC : effKey B ≠ effKey C) :
    (load_zotero_incremental_seq m env ocr [A, B, C] [] dir).csvAppends.length = 1 ∧
    (∀ r ∈ (load_zotero_incremental_seq m env ocr [A, B, C] [] dir).csvAppends,
       r.itemKey = effKey A) ∧
    (load_zotero_incremental_seq m env ocr [A, B, C] [] dir).errors =
      [{ itemKey := effKey B, title := B.title.getD "", error_type := "PDF_NOT_FOUND",
         error_message := "PDF not found: " ++ pyStrip (aB.path.getD ""), pdf_path := none }] ∧
    (load_zotero_incremental_seq m env ocr [A, B, C] [] dir).processed =
      [effKey A, effKey B, effKey C] ∧
    (load_zotero_incremental_seq m env ocr [A, B, C] [] dir).checkpoints.getLast? =
      some [effKey A, effKey B, effKey C] := by
  obtain ⟨rec, hrec, hreckey⟩ :=
    process_item_single_ok m env ocr A dir aA qA payload hA hAne hApdf hAres hAocr
  have hBr := process_item_single_notfound m env ocr B dir aB hB hBne hBpdf hBres
  have hCr := process_item_no_attachments m env ocr C dir hC
  unfold load_zotero_incremental_seq
  simp only [List.filter_cons, List.filter_nil, List.contains_nil, Bool.not_false,
    Bool.or_true, if_pos rfl, List.length_cons, List.length_nil, List.foldl_cons,
    List.foldl_nil]
  simp [stepItem, hrec, hBr, hCr, insertKey, hkA, hkB, hkC, hreckey,
    hAB, hAC, hBC, Ne.symm hAB, Ne.symm hAC, Ne.symm hBC]

/-- Witness for C1: the concrete three-item fixture. -/
theorem C1_end_to_end_witness :
    (load_zotero_incremental_seq demoUni demoEnv demoOcr [wItemA, wItemB, wItemC] [] "base").csvAppends.length = 1 ∧
    (∀ r ∈ (load_zotero_incremental_seq demoUni demoEnv demoOcr [wItemA, wItemB, wItemC] [] "base").csvAppends,
       r.itemKey = effKey wItemA) ∧
    (load_zotero_incremental_seq demoUni demoEnv demoOcr [wItemA, wItemB, wItemC] [] "base").errors =
      [{ itemKey := effKey wItemB, title := wItemB.title.getD "", error_type := "PDF_NOT_FOUND",
         error_message := "PDF not found: " ++
           pyStrip ((Attachment.mk (some "b.pdf") (some "Att B")).path.getD ""),
         pdf_path := none }] ∧
    (load_zotero_incremental_seq demoUni demoEnv demoOcr [wItemA, wItemB, wItemC] [] "base").processed =
      [effKey wItemA, effKey wItemB, effKey wItemC] ∧
    (load_zotero_incremental_seq demoUni demoEnv demoOcr [wItemA, wItemB, wItemC] [] "base").checkpoints.getLast? =
      some [effKey wItemA, effKey wItemB, effKey wItemC] :=
  C1_end_to_end demoUni demoEnv demoOcr wItemA wItemB wItemC "base"
    (Attachment.mk (some "a.pdf") (some "Att A"))
    (Attachment.mk (some "b.pdf") (some "Att B"))
    "base/a.pdf" (OCRResult.mk "extracted text" "mistral")
    rfl rfl rfl rfl rfl rfl rfl rfl rfl rfl rfl rfl rfl
    (by decide) (by decide) (by decide)

theorem initLine_not_row (n : Nat) :
    pyStartsWith (initLine n) "PROGRESS|row|" = false := by
  simp [initLine, pyStartsWith, listStartsWith]

/-- Counterexample for C2: an item with an *empty* key whose (empty) key is
present in the loaded checkpoint is nevertheless reprocessed — the run
emits one `PROGRESS|row` line, not zero as claimed. -/
theorem C2_rerun_counterexample :
    (∀ it ∈ [c2Item], effKey it ∈ [""]) ∧
    ((load_zotero_incremental_seq demoUni demoEnv demoOcr [c2Item] [""] "base").events.filter
      (fun l => pyStartsWith l "PROGRESS|row|")).length = 1 := by
  refine ⟨?_, by rfl⟩
  intro it hit
  simp at hit
  subst hit
  simp [effKey, c2Item]

/-- C2 (amended): for every source file whose items' keys are all
*non-empty* and already present in the loaded checkpoint, re-running the
incremental extraction emits exactly one `PROGRESS|init|<total>|...` line
with total the number of items, zero `PROGRESS|row` lines, and appends zero
new records to the output CSV. -/
theorem C2_rerun_no_reprocessing (m : UniModel) (env : PathEnv)
    (ocr : String → Except String OCRResult)
    (items : List Item) (processed0 : List String) (dir : String)
    (h : ∀ it ∈ items, (effKey it).isEmpty = false ∧ processed0.contains (effKey it) = true) :
    load_zotero_incremental_seq m env ocr items processed0 dir =
      { processed := processed0, csvAppends := [], errors := [],
        events := [initLine items.length], checkpoints := [] } ∧
    ((load_zotero_incremental_seq m env ocr items processed0 dir).events.filter
       (fun l => pyStartsWith l "PROGRESS|row|")) = [] := by
  have hfil : items.filter
      (fun it => (effKey it).isEmpty || !(processed0.contains (effKey it))) = [] := by
    rw [List.filter_eq_nil_iff]
    intro a ha
    obtain ⟨h1, h2⟩ := h a ha
    simp [h1]
    simpa using h2
  have hrun : load_zotero_incremental_seq m env ocr items processed0 dir =
      { processed := processed0, csvAppends := [], errors := [],
        events := [initLine items.length], checkpoints := [] } := by
    unfold load_zotero_incremental_seq
    rw [hfil]
    rfl
  refine ⟨hrun, ?_⟩
  rw [hrun]
  simp [List.filter, initLine_not_row]

/-- Witness for C2 (amended): one fully-checkpointed item. -/
theorem C2_rerun_no_reprocessing_witness :
    load_zotero_incremental_seq demoUni demoEnv demoOcr [wItemC] ["KEYC"] "base" =
      { processed := ["KEYC"], csvAppends := [], errors := [],
        events := [initLine [wItemC].length], checkpoints := [] } :=
  (C2_rerun_no_reprocessing demoUni demoEnv demoOcr [wItemC] ["KEYC"] "base"
    (by decide)).1

theorem subset_insertKey (l : List String) (k : String) : l ⊆ insertKey l k := by
  unfold insertKey
  split
  · exact fun a ha => ha
  · exact fun a ha => List.mem_append_left _ ha

theorem stepItem_inv {p0 : List String} (m : UniModel) (env : PathEnv)
    (ocr : String → Except String OCRResult) (dir : String) (total : Nat)
    (st : RunState × Nat) (item : Item) (h : checkpointInv p0 st.1) :
    checkpointInv p0 (stepItem m env ocr dir total st item).1 := by
  obtain ⟨hpair, hsub⟩ := h
  unfold stepItem
  dsimp only
  split
  · exact ⟨hpair, hsub⟩
  · dsimp only
    constructor
    · rw [← List.cons_append, List.pairwise_append]
      refine ⟨hpair, List.pairwise_singleton _ _, ?_⟩
      intro a ha b hb
      simp at hb
      subst hb
      exact fun x hx => subset_insertKey _ _ (hsub a ha hx)
    · intro c hc
      rw [← List.cons_append] at hc
      rcases List.mem_append.mp hc with hc | hc
      · exact fun x hx => subset_insertKey _ _ (hsub c hc hx)
      · simp at hc
        subst hc
        exact fun x hx => hx

/-- C8: within a single run, the processed-keys set only ever grows — the
checkpoints written by `save_progress`, taken in write order and with the
loaded checkpoint in front, form a ⊆-chain, so every written checkpoint is
a superset of the loaded one and of every earlier one. -/
theorem C8_checkpoint_monotonic (m : UniModel) (env : PathEnv)
    (ocr : String → Except String OCRResult)
    (items : List Item) (processed0 : List String) (dir : String) :
    List.Pairwise (fun a b => a ⊆ b)
      (processed0 :: (load_zotero_incremental_seq m env ocr items processed0 dir).checkpoints) ∧
    (∀ c ∈ (load_zotero_incremental_seq m env ocr items processed0 dir).checkpoints,
       processed0 ⊆ c) := by
  unfold load_zotero_incremental_seq
  dsimp only
  have hinv : ∀ (l : List Item) (st : RunState × Nat), checkpointInv processed0 st.1 →
      checkpointInv processed0 ((l.foldl (stepItem m env ocr dir items.length) st).1) := by
    intro l
    induction l with
    | nil => exact fun st h => h
    | cons it rest ih =>
      intro st h
      exact ih _ (stepItem_inv m env ocr dir items.length st it h)
  have h0 : checkpointInv processed0
      { processed := processed0, csvAppends := [], errors := [],
        events := [initLine items.length], checkpoints := [] } := by
    constructor
    · exact List.pairwise_singleton _ _
    · intro c hc
      simp at hc
      subst hc
      exact fun x hx => hx
  have hfin := hinv
    (items.filter (fun it => (effKey it).isEmpty || !(processed0.contains (effKey it))))
    ({ processed := processed0, csvAppends := [], errors := [],
       events := [initLine items.length], checkpoints := [] }, processed0.length) h0
  obtain ⟨hpair, hsub⟩ := hfin
  refine ⟨hpair, ?_⟩
  intro c hc
  rcases List.pairwise_cons.mp hpair with ⟨hall, _⟩
  exact hall c hc

end ZoteroRag
